import Mathlib

/-!
# A model of `api/voice.js`

This file gives a shallow embedding of the single request handler exported by
`api/voice.js` (a Vercel serverless function that proxies text-to-speech /
voice-cloning requests), and proves the specified properties of its dispatch
logic.

The embedding is pure: the handler is a function from a configuration, an
inbound request and a network oracle (the behaviour of `fetch`) to the list of
outbound calls it performs together with the HTTP response it sends.  The
JavaScript runtime pieces the handler relies on are modelled faithfully:
`JSON.parse` as a total fueled parser over the full JSON grammar (number
literals rounded to IEEE-754 binary64, as the runtime does),
`Buffer.toString("utf8")` as a UTF-8 decoder with replacement characters,
JavaScript truthiness, property destructuring (which throws a `TypeError` on
`null`), `String.prototype.substring`, `includes`, `toLowerCase`, and the
`.replace(trailing slash, empty)` URL normalisation.  Upstream calls are
modelled as total: the oracle always yields a status and a body (network-level
rejections of `fetch` are out of scope of the claims below).
-/

namespace VoiceApi

/-- JavaScript values as produced by `JSON.parse`: `null`, booleans, numbers,
strings, arrays and objects.  A number literal is rounded by `JSON.parse` to
the nearest IEEE-754 binary64 double (see `roundDecJs`); every finite double
is a dyadic rational and hence exactly `mantissa × 10 ^ exp10`, which is how
`num` stores it — so a stored mantissa is `0` exactly when the double is
(plus or minus) zero.  A literal that overflows the double range becomes
`inf` (JSON has no `NaN` or `Infinity` literals, but `JSON.parse "1e400"`
evaluates to `Infinity`).  `undefined` is not a member: `JSON.parse` never
returns it, so absent properties are represented by `Option Js` with `none`
for `undefined`. -/
inductive Js where
  | null
  | bool (b : Bool)
  | num (mantissa : Int) (exp10 : Int)
  | inf (neg : Bool)
  | str (s : String)
  | arr (elems : List Js)
  | obj (fields : List (String × Js))

/-- JavaScript truthiness of a defined value: `null`, `false`, `±0` and the
empty string are falsy, everything else (`Infinity`, any array or object) is
truthy.  Numbers here are already-rounded doubles (`Js.num` stores the exact
double value), so `mantissa ≠ 0` coincides with the double being nonzero —
in particular an underflowing literal such as `1e-400` was rounded to `0`
and is falsy, exactly as in the program. -/
def Js.truthy : Js → Bool
  | .null => false
  | .bool b => b
  | .num m _ => m != 0
  | .inf _ => true
  | .str s => s != ""
  | .arr _ => true
  | .obj _ => true

/-- Truthiness of a possibly-`undefined` value (`none` = `undefined`, falsy). -/
def truthyOpt : Option Js → Bool
  | none => false
  | some v => v.truthy

/-- Whether a value is the JS `null` (the one value `JSON.parse` can return
from which property destructuring throws a `TypeError`). -/
def Js.isNull : Js → Bool
  | .null => true
  | _ => false

/-- Strict equality `v === "lit"` against a string literal: true exactly for a
string value with the same characters (never for objects, numbers, ...). -/
def isStrEq (v : Js) (s : String) : Bool :=
  match v with
  | .str t => t == s
  | _ => false

/-- Own-property lookup on an object, as `JSON.parse` builds it: for duplicate
keys the later member wins (assignment order).  On non-objects the handler only
reads the keys `text` / `language` / `mode`, none of which is a built-in
property of primitives or arrays, so the result is `undefined` there. -/
def lookupLast (fs : List (String × Js)) (k : String) : Option Js :=
  match fs with
  | [] => none
  | (k2, v) :: rest =>
    match lookupLast rest k with
    | some r => some r
    | none => if k2 = k then some v else none

/-- Property access `body[k]` as used by the destructuring in `voice.js`. -/
def getField (v : Js) (k : String) : Option Js :=
  match v with
  | .obj fs => lookupLast fs k
  | _ => none

/-! ## UTF-8 decoding (`Buffer.prototype.toString("utf8")`)

Bytes are `Nat`s below 256.  Well-formed sequences decode to their code point;
malformed bytes decode to U+FFFD (the replacement character), as Node does. -/

/-- The replacement character U+FFFD. -/
def repl : Char := Char.ofNat 0xFFFD

/-- Is `b` a UTF-8 continuation byte (`0x80`–`0xBF`)? -/
def contByte (b : Nat) : Bool := 0x80 ≤ b && b ≤ 0xBF

/-- Valid range of the first continuation byte after a 3-byte lead: `0xE0`
forbids overlong encodings, `0xED` forbids surrogates. -/
def cont3ok (lead c1 : Nat) : Bool :=
  if lead = 0xE0 then 0xA0 ≤ c1 && c1 ≤ 0xBF
  else if lead = 0xED then 0x80 ≤ c1 && c1 ≤ 0x9F
  else contByte c1

/-- Valid range of the first continuation byte after a 4-byte lead: `0xF0`
forbids overlong encodings, `0xF4` caps at U+10FFFF. -/
def cont4ok (lead c1 : Nat) : Bool :=
  if lead = 0xF0 then 0x90 ≤ c1 && c1 ≤ 0xBF
  else if lead = 0xF4 then 0x80 ≤ c1 && c1 ≤ 0x8F
  else contByte c1

/-- Decode a UTF-8 byte sequence to characters, emitting U+FFFD for a
malformed lead or continuation byte and resuming after the offending lead.
Structural on the fuel; every recursive call consumes at least one byte, so
fuel `length + 1` (supplied by `utf8Decode`) always suffices. -/
def utf8DecodeList : Nat → List Nat → List Char
  | 0, _ => []
  | Nat.succ fuel, l =>
    match l with
    | [] => []
    | b :: rest =>
      if b < 0x80 then
        Char.ofNat b :: utf8DecodeList fuel rest
      else if 0xC2 ≤ b && b ≤ 0xDF then
        match rest with
        | c1 :: r2 =>
          if contByte c1 then
            Char.ofNat ((b - 0xC0) * 0x40 + (c1 - 0x80)) :: utf8DecodeList fuel r2
          else repl :: utf8DecodeList fuel (c1 :: r2)
        | [] => [repl]
      else if 0xE0 ≤ b && b ≤ 0xEF then
        match rest with
        | c1 :: c2 :: r2 =>
          if cont3ok b c1 && contByte c2 then
            Char.ofNat ((b - 0xE0) * 0x1000 + (c1 - 0x80) * 0x40 + (c2 - 0x80)) ::
              utf8DecodeList fuel r2
          else repl :: utf8DecodeList fuel (c1 :: c2 :: r2)
        | [c1] => repl :: utf8DecodeList fuel [c1]
        | [] => [repl]
      else if 0xF0 ≤ b && b ≤ 0xF4 then
        match rest with
        | c1 :: c2 :: c3 :: r2 =>
          if cont4ok b c1 && contByte c2 && contByte c3 then
            Char.ofNat ((b - 0xF0) * 0x40000 + (c1 - 0x80) * 0x1000 +
                (c2 - 0x80) * 0x40 + (c3 - 0x80)) :: utf8DecodeList fuel r2
          else repl :: utf8DecodeList fuel (c1 :: c2 :: c3 :: r2)
        | [c1, c2] => repl :: utf8DecodeList fuel [c1, c2]
        | [c1] => repl :: utf8DecodeList fuel [c1]
        | [] => [repl]
      else repl :: utf8DecodeList fuel rest

/-- `Buffer.prototype.toString("utf8")` on a byte buffer. -/
def utf8Decode (b : List Nat) : String := ⟨utf8DecodeList (b.length + 1) b⟩

/-! ## `JSON.parse`

A total, fueled parser for the RFC 8259 grammar accepted by `JSON.parse`.
Every recursive descent into a value consumes at least one character first, so
fuel `length + 1` always suffices; running out of fuel is reported as the same
syntax error as any other malformed input (the handler only ever inspects
whether parsing threw, plus a bounded prefix of the message). -/

/-- The stringified error thrown on malformed JSON (`String(err)` of the
`SyntaxError`; the exact engine message is irrelevant to the handler). -/
def jsonStxErr : String := "SyntaxError: Unexpected token in JSON"

/-- JSON insignificant whitespace. -/
def jsonWs (c : Char) : Bool := c == ' ' || c == '\t' || c == '\n' || c == '\r'

/-- The input after any leading JSON whitespace. -/
def wsRest : List Char → List Char
  | c :: r => if jsonWs c then wsRest r else c :: r
  | [] => []

/-- Value of a decimal digit character, if it is one. -/
def decDigitVal (c : Char) : Option Nat :=
  let n := c.toNat
  if 48 ≤ n && n ≤ 57 then some (n - 48) else none

/-- Value of a hexadecimal digit character, if it is one. -/
def hexDigitVal (c : Char) : Option Nat :=
  let n := c.toNat
  if 48 ≤ n && n ≤ 57 then some (n - 48)
  else if 97 ≤ n && n ≤ 102 then some (n - 87)
  else if 65 ≤ n && n ≤ 70 then some (n - 55)
  else none

/-- Split off a maximal run of decimal digits, as digit values. -/
def digitSpan : List Char → List Nat × List Char
  | c :: r =>
    match decDigitVal c with
    | some d => let (ds, r2) := digitSpan r; (d :: ds, r2)
    | none => ([], c :: r)
  | [] => ([], [])

/-- Read a digit run as a natural number. -/
def digitsToNat (ds : List Nat) : Nat := ds.foldl (fun a d => a * 10 + d) 0

/-! ### Rounding a number literal to an IEEE-754 binary64 double

`JSON.parse` converts a number literal to a double by round-to-nearest,
ties-to-even.  The helpers below do that conversion exactly, in integer
arithmetic: the literal denotes the rational `n × 10 ^ e`, its binary
exponent is located by comparing scaled integers, the 53-bit (or subnormal)
significand is obtained by one rounded division, and the resulting dyadic
`s × 2 ^ t` is stored back as an exact decimal `mantissa × 10 ^ exp10`
(`2 ^ t = 5 ^ (-t) × 10 ^ t` for `t < 0`).  A positive real rounds to zero
exactly when it is at most `2 ^ (-1075)` — half the least subnormal, the tie
going to the even significand `0` — and to `Infinity` exactly when it is at
least `2 ^ 1024 - 2 ^ 970`, which the significand-overflow bump detects. -/

/-- Number of binary digits of `n` (0 for 0).  Fueled; each step halves `n`,
so fuel `n + 1` is always enough. -/
def bitLenAux : Nat → Nat → Nat
  | 0, _ => 0
  | Nat.succ fuel, n => if n = 0 then 0 else bitLenAux fuel (n / 2) + 1

/-- Number of binary digits: `2 ^ (bitLen n - 1) ≤ n < 2 ^ bitLen n` for
positive `n`. -/
def bitLen (n : Nat) : Nat := bitLenAux (n + 1) n

/-- Number of decimal digits of `n` (0 for 0), with the same fuel scheme. -/
def digitCountAux : Nat → Nat → Nat
  | 0, _ => 0
  | Nat.succ fuel, n => if n = 0 then 0 else digitCountAux fuel (n / 10) + 1

/-- Number of decimal digits: `10 ^ (digitCount n - 1) ≤ n < 10 ^ digitCount n`
for positive `n`. -/
def digitCount (n : Nat) : Nat := digitCountAux (n + 1) n

/-- Does `b × 2 ^ t ≤ a` hold (for an integer `t` of either sign)? -/
def scaled2Le (b : Nat) (t : Int) (a : Nat) : Bool :=
  if 0 ≤ t then decide (b * 2 ^ t.toNat ≤ a) else decide (b ≤ a * 2 ^ (-t).toNat)

/-- `⌊log₂ (a / b)⌋` for positive `a`, `b`: the bit lengths bracket the
quotient within two binades and one scaled comparison picks the right one. -/
def floorLog2 (a b : Nat) : Int :=
  let L : Int := (bitLen a : Int) - (bitLen b : Int)
  if scaled2Le b L a then L else L - 1

/-- `p / q` rounded to the nearest integer, ties to the even neighbour. -/
def divRoundEven (p q : Nat) : Nat :=
  let q0 := p / q
  let r := p % q
  if 2 * r < q then q0
  else if q < 2 * r then q0 + 1
  else if q0 % 2 = 0 then q0 else q0 + 1

/-- Split `s` into `odd × 2 ^ count`.  Fueled; `bitLen s` halvings suffice. -/
def strip2Aux : Nat → Nat → Nat × Nat
  | 0, s => (s, 0)
  | Nat.succ fuel, s =>
    if s ≠ 0 ∧ s % 2 = 0 then
      let (o, j) := strip2Aux fuel (s / 2)
      (o, j + 1)
    else (s, 0)

/-- The exact value `±(s × 2 ^ t)` of a rounded double, stored as a decimal
`mantissa × 10 ^ exp10` with the power of two folded in (canonically: the
stored dyadic has an odd significand). -/
def dyadicJs (neg : Bool) (s : Nat) (t : Int) : Js :=
  let (o, j) := strip2Aux (bitLen s) s
  let t2 : Int := t + (j : Int)
  if 0 ≤ t2 then
    let m : Int := Int.ofNat (o * 2 ^ t2.toNat)
    .num (if neg then -m else m) 0
  else
    let m : Int := Int.ofNat (o * 5 ^ (-t2).toNat)
    .num (if neg then -m else m) t2

/-- Round the literal value `±(n × 10 ^ e)` to the nearest binary64 double
(ties to even), as `JSON.parse` does.  The decimal-magnitude clamps dispose
of extreme exponents without building their powers: `10 ^ 309` already
exceeds every finite double plus half an ulp, and `10 ^ (-324)` is already
below `2 ^ (-1075)`.  In range, `f = ⌊log₂⌋` selects the binade — normal for
`f ≥ -1022`, the fixed subnormal grid `2 ^ (-1074)` below — and one rounded
division produces the significand; a significand of `2 ^ 53` in the top
binade means the value rounded past the largest finite double. -/
def roundDecJs (neg : Bool) (n : Nat) (e : Int) : Js :=
  if n = 0 then .num 0 0
  else
    let E : Int := (digitCount n : Int) + e
    if 310 ≤ E then .inf neg
    else if E ≤ -324 then .num 0 0
    else
      let (a, b) : Nat × Nat :=
        if 0 ≤ e then (n * 10 ^ e.toNat, 1) else (n, 10 ^ (-e).toNat)
      let f := floorLog2 a b
      if 1023 < f then .inf neg
      else
        let k : Int := 52 - max f (-1022)
        let s := if 0 ≤ k then divRoundEven (a * 2 ^ k.toNat) b
                 else divRoundEven a (b * 2 ^ (-k).toNat)
        if s = 0 then .num 0 0
        else if f = 1023 ∧ s = 2 ^ 53 then .inf neg
        else dyadicJs neg s (-k)

/-- Translate a single-character escape (everything but `\u`). -/
def escCode : Char → Option Char
  | '"' => some '"'
  | '\\' => some '\\'
  | '/' => some '/'
  | 'b' => some (Char.ofNat 8)
  | 'f' => some (Char.ofNat 12)
  | 'n' => some (Char.ofNat 10)
  | 'r' => some (Char.ofNat 13)
  | 't' => some (Char.ofNat 9)
  | _ => none

/-- Parse the body of a string literal (the opening quote already consumed),
returning its characters and the input after the closing quote.  `\uXXXX`
surrogate pairs combine into one code point; a lone surrogate (representable
in a JS string but not as a Lean `Char`) becomes U+FFFD.  Structural on the
fuel; every recursive call consumes at least one character, so fuel
`length + 1` (supplied by `parseStr`) always suffices. -/
def parseStrF : Nat → List Char → Except String (List Char × List Char)
  | 0, _ => .error jsonStxErr
  | Nat.succ fuel, s =>
    match s with
    | [] => .error jsonStxErr
    | '"' :: r => .ok ([], r)
    | '\\' :: 'u' :: h1 :: h2 :: h3 :: h4 :: r =>
      match hexDigitVal h1, hexDigitVal h2, hexDigitVal h3, hexDigitVal h4 with
      | some a, some b, some c, some d =>
        let n := ((a * 16 + b) * 16 + c) * 16 + d
        if 0xD800 ≤ n && n ≤ 0xDBFF then
          match r with
          | '\\' :: 'u' :: g1 :: g2 :: g3 :: g4 :: r2 =>
            match hexDigitVal g1, hexDigitVal g2, hexDigitVal g3, hexDigitVal g4 with
            | some a2, some b2, some c2, some d2 =>
              let m := ((a2 * 16 + b2) * 16 + c2) * 16 + d2
              if 0xDC00 ≤ m && m ≤ 0xDFFF then
                match parseStrF fuel r2 with
                | .ok (cs, rest) =>
                  .ok (Char.ofNat (0x10000 + (n - 0xD800) * 0x400 + (m - 0xDC00)) :: cs,
                       rest)
                | .error e => .error e
              else
                match parseStrF fuel ('\\' :: 'u' :: g1 :: g2 :: g3 :: g4 :: r2) with
                | .ok (cs, rest) => .ok (repl :: cs, rest)
                | .error e => .error e
            | _, _, _, _ => .error jsonStxErr
          | _ =>
            match parseStrF fuel r with
            | .ok (cs, rest) => .ok (repl :: cs, rest)
            | .error e => .error e
        else if 0xDC00 ≤ n && n ≤ 0xDFFF then
          match parseStrF fuel r with
          | .ok (cs, rest) => .ok (repl :: cs, rest)
          | .error e => .error e
        else
          match parseStrF fuel r with
          | .ok (cs, rest) => .ok (Char.ofNat n :: cs, rest)
          | .error e => .error e
      | _, _, _, _ => .error jsonStxErr
    | '\\' :: e :: r =>
      match escCode e with
      | some c =>
        match parseStrF fuel r with
        | .ok (cs, rest) => .ok (c :: cs, rest)
        | .error e2 => .error e2
      | none => .error jsonStxErr
    | c :: r =>
      if c.toNat < 0x20 then .error jsonStxErr
      else
        match parseStrF fuel r with
        | .ok (cs, rest) => .ok (c :: cs, rest)
        | .error e => .error e

/-- Parse a string-literal body with always-sufficient fuel. -/
def parseStr (s : List Char) : Except String (List Char × List Char) :=
  parseStrF (s.length + 1) s

/-- Finish a number literal: given its sign, integer digits and fraction
digits, parse an optional exponent and build the value. -/
def parseExp (neg : Bool) (ids fds : List Nat) (s : List Char) :
    Except String (Js × List Char) :=
  let mk : Int → List Nat → List Char → Except String (Js × List Char) :=
    fun esign eds r =>
      .ok (roundDecJs neg (digitsToNat (ids ++ fds))
            (esign * Int.ofNat (digitsToNat eds) - Int.ofNat fds.length), r)
  match s with
  | 'e' :: r =>
    match r with
    | '+' :: r2 => let (eds, r3) := digitSpan r2
                   if eds = [] then .error jsonStxErr else mk 1 eds r3
    | '-' :: r2 => let (eds, r3) := digitSpan r2
                   if eds = [] then .error jsonStxErr else mk (-1) eds r3
    | _ => let (eds, r2) := digitSpan r
           if eds = [] then .error jsonStxErr else mk 1 eds r2
  | 'E' :: r =>
    match r with
    | '+' :: r2 => let (eds, r3) := digitSpan r2
                   if eds = [] then .error jsonStxErr else mk 1 eds r3
    | '-' :: r2 => let (eds, r3) := digitSpan r2
                   if eds = [] then .error jsonStxErr else mk (-1) eds r3
    | _ => let (eds, r2) := digitSpan r
           if eds = [] then .error jsonStxErr else mk 1 eds r2
  | _ => mk 1 [] s

/-- Parse a number literal per the JSON grammar: optional minus, integer part
with no leading zero, optional fraction, optional exponent. -/
def parseNum (s0 : List Char) : Except String (Js × List Char) :=
  let (neg, s1) := match s0 with
    | '-' :: r => (true, r)
    | _ => (false, s0)
  let (ids, s2) := digitSpan s1
  if ids = [] then .error jsonStxErr
  else if 1 < ids.length && ids.headD 1 = 0 then .error jsonStxErr
  else
    match s2 with
    | '.' :: r =>
      let (fds, s3) := digitSpan r
      if fds = [] then .error jsonStxErr else parseExp neg ids fds s3
    | _ => parseExp neg ids [] s2

/-- The keyword literal beginning the input, if there is one. -/
def keywordAt : List Char → Option (Js × List Char)
  | 'n' :: 'u' :: 'l' :: 'l' :: r => some (Js.null, r)
  | 't' :: 'r' :: 'u' :: 'e' :: r => some (Js.bool true, r)
  | 'f' :: 'a' :: 'l' :: 's' :: 'e' :: r => some (Js.bool false, r)
  | _ => none

mutual

/-- Parse one JSON value (leading whitespace allowed), returning it and the
rest of the input.  Structural on the fuel. -/
def jsonVal : Nat → List Char → Except String (Js × List Char)
  | 0, _ => .error jsonStxErr
  | Nat.succ fuel, s =>
    match wsRest s with
    | '{' :: r =>
      match wsRest r with
      | '}' :: r2 => .ok (.obj [], r2)
      | r2 =>
        match jsonFields fuel r2 with
        | .ok (fs, r3) =>
          match wsRest r3 with
          | '}' :: r4 => .ok (.obj fs, r4)
          | _ => .error jsonStxErr
        | .error e => .error e
    | '[' :: r =>
      match wsRest r with
      | ']' :: r2 => .ok (.arr [], r2)
      | r2 =>
        match jsonItems fuel r2 with
        | .ok (es, r3) =>
          match wsRest r3 with
          | ']' :: r4 => .ok (.arr es, r4)
          | _ => .error jsonStxErr
        | .error e => .error e
    | '"' :: r =>
      match parseStr r with
      | .ok (cs, r2) => .ok (.str ⟨cs⟩, r2)
      | .error e => .error e
    | s2 =>
      match keywordAt s2 with
      | some (v, r) => .ok (v, r)
      | none => parseNum s2

/-- Parse a non-empty `key : value` member list of an object. -/
def jsonFields : Nat → List Char → Except String (List (String × Js) × List Char)
  | 0, _ => .error jsonStxErr
  | Nat.succ fuel, s =>
    match wsRest s with
    | '"' :: r =>
      match parseStr r with
      | .ok (key, r2) =>
        match wsRest r2 with
        | ':' :: r3 =>
          match jsonVal fuel r3 with
          | .ok (v, r4) =>
            match wsRest r4 with
            | ',' :: r5 =>
              match jsonFields fuel r5 with
              | .ok (fs, r6) => .ok ((⟨key⟩, v) :: fs, r6)
              | .error e => .error e
            | r5 => .ok ([(⟨key⟩, v)], r5)
          | .error e => .error e
        | _ => .error jsonStxErr
      | .error e => .error e
    | _ => .error jsonStxErr

/-- Parse a non-empty element list of an array. -/
def jsonItems : Nat → List Char → Except String (List Js × List Char)
  | 0, _ => .error jsonStxErr
  | Nat.succ fuel, s =>
    match jsonVal fuel s with
    | .ok (v, r) =>
      match wsRest r with
      | ',' :: r2 =>
        match jsonItems fuel r2 with
        | .ok (es, r3) => .ok (v :: es, r3)
        | .error e => .error e
      | r2 => .ok ([v], r2)
    | .error e => .error e

end

/-- `JSON.parse`: parse one value surrounded by optional whitespace; anything
left over is a syntax error. -/
def jsParse (s : String) : Except String Js :=
  match jsonVal (s.length + 1) s.data with
  | .error e => .error e
  | .ok (v, rest) =>
    match wsRest rest with
    | [] => .ok v
    | _ => .error jsonStxErr

/-! ## JavaScript string helpers used by the handler -/

/-- Does the character list start with the given pattern? -/
def startsWithL (s pat : List Char) : Bool :=
  match s, pat with
  | _, [] => true
  | [], _ :: _ => false
  | c :: s2, p :: ps => c == p && startsWithL s2 ps

/-- Does the character list contain the pattern as a contiguous run? -/
def hasSubList (pat : List Char) : List Char → Bool
  | [] => pat.isEmpty
  | c :: rest => startsWithL (c :: rest) pat || hasSubList pat rest

/-- `String.prototype.includes`. -/
def strIncludes (s pat : String) : Bool := hasSubList pat.data s.data

/-- `String.prototype.toLowerCase` (ASCII case folding; the handler only
compares against the ASCII pattern `application/json`). -/
def jsToLowerCase (s : String) : String := ⟨s.data.map Char.toLower⟩

/-- `String.prototype.substring(0, n)` (the truncation used on error
details). -/
def jsSubstring0 (s : String) (n : Nat) : String := ⟨s.data.take n⟩

/-- `url.replace(trailing-slash regex, "")`: drop one trailing `/`. -/
def stripTrailingSlash (s : String) : String :=
  match s.data.getLast? with
  | some '/' => ⟨s.data.dropLast⟩
  | _ => s

/-- The `{base}/synthesize` URL the handler builds for the RVC server
(`voice.js` lines 51 and 113). -/
def synthUrl (base : String) : String := stripTrailingSlash base ++ "/synthesize"

/-! ## Configuration, requests, network and responses -/

/-- The module-level configuration (`voice.js` lines 14–16), after the
JavaScript `||` defaulting has been applied: `RVC_SERVER_URL` and
`GEMINI_API_KEY` default to the empty string, `GEMINI_TTS_URL` to the
hardcoded Gemini endpoint.  "Configured" for the two optional values means
being a non-empty string (JS truthiness of a string). -/
structure Config where
  RVC_SERVER_URL : String
  GEMINI_API_KEY : String
  GEMINI_TTS_URL : String

/-- The built-in default TTS endpoint (`voice.js` line 16). -/
def defaultGeminiTtsUrl : String :=
  "https://api.generativeai.googleapis.com/v1beta2/speech:generate"

/-- The raw environment: `process.env` values, `none` when unset. -/
structure ProcessEnv where
  RVC_SERVER_URL : Option String
  GEMINI_API_KEY : Option String
  GEMINI_TTS_URL : Option String

/-- `process.env.X || d`: the default applies when the variable is unset or
set to the empty string (falsy). -/
def envOr (v : Option String) (d : String) : String :=
  match v with
  | none => d
  | some s => if s = "" then d else s

/-- Build the module configuration from the environment (`voice.js` 14–16). -/
def Config.ofEnv (e : ProcessEnv) : Config :=
  ⟨envOr e.RVC_SERVER_URL "", envOr e.GEMINI_API_KEY "",
   envOr e.GEMINI_TTS_URL defaultGeminiTtsUrl⟩

/-- One inbound HTTP request: the method, the `content-type` header
(`none` when the header is absent) and the raw body bytes that
`readRawRequest` buffers (`voice.js` 18–22, 34). -/
structure Request where
  method : String
  contentTypeHeader : Option String
  rawBody : List Nat

/-- The body of an outbound `fetch`: either `JSON.stringify` of a value (the
two JSON branches) or the raw inbound buffer (the binary branch). -/
inductive FetchBody where
  | jsonOf (v : Js)
  | bytes (b : List Nat)

/-- One outbound `fetch` call as the handler issues it. -/
structure FetchReq where
  url : String
  method : String
  headers : List (String × String)
  body : FetchBody

/-- An upstream response: a status and body bytes.  `fetch` and the body
reads are modelled as total (network-level rejections are out of scope). -/
structure FetchResp where
  status : Nat
  body : List Nat

/-- `Response.ok`: status in the 2xx range. -/
def FetchResp.isOk (r : FetchResp) : Bool := 200 ≤ r.status && r.status < 300

/-- `await r.text()`: the body decoded as UTF-8. -/
def FetchResp.text (r : FetchResp) : String := utf8Decode r.body

/-- The body of the response the handler sends: a JSON value (via
`res.json`) or a byte buffer (via `res.send`). -/
inductive RespBody where
  | json (v : Js)
  | buffer (b : List Nat)

/-- The response the handler sends: status, headers set with `setHeader`,
and the body. -/
structure HttpResponse where
  status : Nat
  headers : List (String × String)
  body : RespBody

/-- `res.status(n).json({error: e})`. -/
def errJson (status : Nat) (e : String) : HttpResponse :=
  ⟨status, [], .json (.obj [("error", .str e)])⟩

/-- `res.status(n).json({error: e, details: d})`. -/
def errJsonDetails (status : Nat) (e d : String) : HttpResponse :=
  ⟨status, [], .json (.obj [("error", .str e), ("details", .str d)])⟩

/-- The success response: `setHeader("Content-Type", "audio/wav")` then
`res.status(200).send(buffer)`. -/
def audioOk (b : List Nat) : HttpResponse :=
  ⟨200, [("Content-Type", "audio/wav")], .buffer b⟩

/-! ## The handler (`module.exports`, `voice.js` 24–137)

The handler is modelled as a pure function of the configuration, the inbound
request and a network oracle `net` giving the upstream response to each
outbound call.  It returns the list of outbound calls it performed (in order)
together with the response it sends.  Exceptions inside the `try` block are
modelled with `Except String`: in this model they arise exactly at
`JSON.parse` (a `SyntaxError`) and at destructuring `null` (a `TypeError`);
the carried string is `String(err)`. -/

/-- `String(err)` of the `TypeError` thrown by
`const { text, language, mode } = body` when `body` is `null`. -/
def nullDestructureErr : String :=
  "TypeError: Cannot destructure property text of JSON.parse(...) as it is null."

/-- `rawBuffer.toString("utf8") || "{}"` (`voice.js` line 38). -/
def jsonBodyText (b : List Nat) : String :=
  if utf8Decode b = "" then "{}" else utf8Decode b

/-- The `mode === "cloned" && RVC_SERVER_URL` branch (`voice.js` 48–68):
forward `{text, language}` to the RVC server synthesize endpoint. -/
def rvcJsonCall (cfg : Config) (net : FetchReq → FetchResp) (text language : Js) :
    List FetchReq × HttpResponse :=
  let r0 : FetchReq :=
    { url := synthUrl cfg.RVC_SERVER_URL
      method := "POST"
      headers := [("Content-Type", "application/json")]
      body := .jsonOf (.obj [("text", text), ("language", language)]) }
  let r := net r0
  if !r.isOk then
    ([r0], errJsonDetails 502 "RVC synth failed" (jsSubstring0 r.text 200))
  else
    ([r0], audioOk r.body)

/-- The Gemini TTS fallback (`voice.js` 70–102): reject when no API key is
configured, otherwise post the fixed-encoding synthesis request.  The
`language` value is not part of the outbound payload. -/
def geminiCall (cfg : Config) (net : FetchReq → FetchResp) (text : Js) :
    List FetchReq × HttpResponse :=
  if cfg.GEMINI_API_KEY = "" then
    ([], errJson 500 "No RVC_SERVER_URL or GEMINI_API_KEY configured")
  else
    let g0 : FetchReq :=
      { url := cfg.GEMINI_TTS_URL
        method := "POST"
        headers := [("Content-Type", "application/json"),
                    ("Authorization", "Bearer " ++ cfg.GEMINI_API_KEY)]
        body := .jsonOf (.obj
          [("input", .obj [("text", text)]),
           ("audio", .obj [("encoding", .str "LINEAR16"),
                           ("sampleRateHertz", .num 24000 0)])]) }
    let g := net g0
    if !g.isOk then
      ([g0], errJsonDetails 502 "Gemini TTS failed" (jsSubstring0 g.text 300))
    else
      ([g0], audioOk g.body)

/-- The JSON branch (`voice.js` 37–103): parse the body (throwing on bad
JSON), destructure (throwing on `null`), reject falsy `text` with 400, then
route by `mode` and configuration. -/
def jsonBranch (cfg : Config) (net : FetchReq → FetchResp) (rawBuffer : List Nat) :
    Except String (List FetchReq × HttpResponse) :=
  match jsParse (jsonBodyText rawBuffer) with
  | .error e => .error e
  | .ok body =>
    if body.isNull then .error nullDestructureErr
    else
      let text := getField body "text"
      let language := (getField body "language").getD (.str "en")
      let mode := (getField body "mode").getD (.str "cloned")
      if !truthyOpt text then
        .ok ([], errJson 400 "Missing text field in JSON body")
      else if isStrEq mode "cloned" && cfg.RVC_SERVER_URL != "" then
        .ok (rvcJsonCall cfg net (text.getD .null) language)
      else
        .ok (geminiCall cfg net (text.getD .null))

/-- The raw/binary branch (`voice.js` 105–132): require the RVC URL, then
forward the raw buffer verbatim, with the inbound content-type preserved when
truthy and `application/octet-stream` otherwise. -/
def binaryBranch (cfg : Config) (net : FetchReq → FetchResp)
    (ctHeader : Option String) (rawBuffer : List Nat) :
    List FetchReq × HttpResponse :=
  if cfg.RVC_SERVER_URL = "" then
    ([], errJson 400
      "This endpoint received audio, but RVC_SERVER_URL is not set. Set RVC_SERVER_URL to forward audio.")
  else
    let fwdCt := match ctHeader with
      | none => "application/octet-stream"
      | some s => if s = "" then "application/octet-stream" else s
    let r0 : FetchReq :=
      { url := synthUrl cfg.RVC_SERVER_URL
        method := "POST"
        headers := [("Content-Type", fwdCt)]
        body := .bytes rawBuffer }
    let r := net r0
    if !r.isOk then
      ([r0], errJsonDetails 502 "RVC audio processing failed" (jsSubstring0 r.text 200))
    else
      ([r0], audioOk r.body)

/-- The body of the `try` block (`voice.js` 30–132): classify by content type
and dispatch. -/
def handlerTry (cfg : Config) (req : Request) (net : FetchReq → FetchResp) :
    Except String (List FetchReq × HttpResponse) :=
  let contentType := jsToLowerCase (req.contentTypeHeader.getD "")
  if strIncludes contentType "application/json" then
    jsonBranch cfg net req.rawBody
  else
    .ok (binaryBranch cfg net req.contentTypeHeader req.rawBody)

/-- The exported handler (`voice.js` 24–137): the method gate, the `try`
block, and the outermost `catch` turning any exception into a generic 500. -/
def handler (cfg : Config) (req : Request) (net : FetchReq → FetchResp) :
    List FetchReq × HttpResponse :=
  if req.method != "POST" then
    ([], errJson 405 "Only POST allowed")
  else
    match handlerTry cfg req net with
    | .ok out => out
    | .error e =>
      ([], errJsonDetails 500 "Internal server error" (jsSubstring0 e 300))

/-- Which upstream branch an outbound call belongs to, read off the call
itself, together with that branch's error label and truncation limit: the
raw-forward call is the one with a byte body; of the two JSON-body calls, the
Gemini TTS one is the one carrying an `Authorization` header. -/
def branchTag (c : FetchReq) : String × Nat :=
  match c.body with
  | .bytes _ => ("RVC audio processing failed", 200)
  | .jsonOf _ =>
    if c.headers.any (fun p => p.1 == "Authorization") then ("Gemini TTS failed", 300)
    else ("RVC synth failed", 200)

/-! ## Helper lemmas -/

/-- `substring(0, n)` yields at most `n` characters. -/
theorem jsSubstring0_length_le (s : String) (n : Nat) :
    (jsSubstring0 s n).length ≤ n := by
  show (s.data.take n).length ≤ n
  rw [List.length_take]
  exact Nat.min_le_left _ _

/-- Reduction of the handler on a POST request with a JSON content type whose
body parses to a non-`null` value: the routing core of the JSON branch. -/
theorem handler_post_json (cfg : Config) (req : Request) (net : FetchReq → FetchResp)
    (body : Js)
    (hm : req.method = "POST")
    (hct : strIncludes (jsToLowerCase (req.contentTypeHeader.getD "")) "application/json"
      = true)
    (hparse : jsParse (jsonBodyText req.rawBody) = .ok body)
    (hnn : body.isNull = false) :
    handler cfg req net =
      if !truthyOpt (getField body "text") then
        ([], errJson 400 "Missing text field in JSON body")
      else if isStrEq ((getField body "mode").getD (.str "cloned")) "cloned"
          && cfg.RVC_SERVER_URL != "" then
        rvcJsonCall cfg net ((getField body "text").getD .null)
          ((getField body "language").getD (.str "en"))
      else
        geminiCall cfg net ((getField body "text").getD .null) := by
  simp [handler, handlerTry, jsonBranch, hm, hct, hparse, hnn]
  split_ifs <;> rfl

/-- A value with a truthy `text` property cannot be `null` (property access on
`null` would have thrown instead of yielding a value). -/
theorem isNull_false_of_truthy (body : Js)
    (h : truthyOpt (getField body "text") = true) : body.isNull = false := by
  cases body <;> first | rfl | (simp [getField, truthyOpt] at h)

/-! ## Claims -/

/-- Claim C8: for every inbound request whose method is not POST, the handler
responds 405 with body `{error: "Only POST allowed"}` and performs no further
processing — the result is the constant `([], 405 response)` for every
configuration, body and network behaviour, so the body is never read and no
upstream call is made. -/
theorem claim8_method_gate (cfg : Config) (req : Request) (net : FetchReq → FetchResp)
    (h : req.method ≠ "POST") :
    handler cfg req net = ([], errJson 405 "Only POST allowed") := by
  simp [handler, h]

theorem claim8_method_gate_witness :
    ("GET" : String) ≠ "POST" ∧
      handler ⟨"", "", ""⟩ ⟨"GET", none, [1, 2]⟩ (fun _ => ⟨200, []⟩) =
        ([], errJson 405 "Only POST allowed") :=
  ⟨by decide, claim8_method_gate _ _ _ (by decide)⟩

/-- Claim C4: for every JSON-content-type POST request whose parsed body is a
value (not `null`) with a falsy `text` field — absent, empty string, `null`,
`false`, `0` —, including the empty body which parses as the empty object, the
handler responds 400 `{error: "Missing text field in JSON body"}` and makes no
upstream call (the calls list is empty). -/
theorem claim4_missing_text (cfg : Config) (req : Request) (net : FetchReq → FetchResp)
    (body : Js)
    (hm : req.method = "POST")
    (hct : strIncludes (jsToLowerCase (req.contentTypeHeader.getD "")) "application/json"
      = true)
    (hparse : jsParse (jsonBodyText req.rawBody) = .ok body)
    (hnn : body.isNull = false)
    (htext : truthyOpt (getField body "text") = false) :
    handler cfg req net = ([], errJson 400 "Missing text field in JSON body") := by
  rw [handler_post_json cfg req net body hm hct hparse hnn]
  simp [htext]

theorem claim4_missing_text_witness :
    jsParse (jsonBodyText ([] : List Nat)) = .ok (.obj []) ∧
    truthyOpt (getField (.obj []) "text") = false ∧
    handler ⟨"http://rvc", "k", ""⟩ ⟨"POST", some "application/json", []⟩
        (fun _ => ⟨200, []⟩) =
      ([], errJson 400 "Missing text field in JSON body") :=
  ⟨rfl, rfl, claim4_missing_text _ _ _ (.obj []) rfl rfl rfl rfl rfl⟩

/-- Claim C6: for every JSON-content-type POST request whose (non-empty) body
is not valid JSON, the parse failure propagates to the single outermost catch:
the handler responds 500 `{error: "Internal server error"}` — not 400 — with
the stringified error as details truncated to at most 300 characters, and
makes no upstream call.  (An empty body never reaches this case: it is
replaced by `"{}"`, which parses.) -/
theorem claim6_bad_json (cfg : Config) (req : Request) (net : FetchReq → FetchResp)
    (msg : String)
    (hm : req.method = "POST")
    (hct : strIncludes (jsToLowerCase (req.contentTypeHeader.getD "")) "application/json"
      = true)
    (hparse : jsParse (jsonBodyText req.rawBody) = .error msg) :
    handler cfg req net =
        ([], errJsonDetails 500 "Internal server error" (jsSubstring0 msg 300))
      ∧ (jsSubstring0 msg 300).length ≤ 300 := by
  constructor
  · simp [handler, handlerTry, jsonBranch, hm, hct, hparse]
  · exact jsSubstring0_length_le _ _

theorem claim6_bad_json_witness :
    jsParse (jsonBodyText [123]) = .error jsonStxErr ∧
    (handler ⟨"http://rvc", "k", ""⟩ ⟨"POST", some "application/json", [123]⟩
        (fun _ => ⟨200, []⟩) =
      ([], errJsonDetails 500 "Internal server error" (jsSubstring0 jsonStxErr 300))
      ∧ (jsSubstring0 jsonStxErr 300).length ≤ 300) :=
  ⟨rfl, claim6_bad_json _ _ _ jsonStxErr rfl rfl rfl⟩

/-- Claim C10: for a JSON-content-type POST request whose body is exactly the
JSON literal `null`, `JSON.parse` succeeds with `null`, destructuring `text`
from it throws a `TypeError`, and only the outermost catch sees it: the
handler responds 500 `{error: "Internal server error"}` — the falsy-`text`
400 path is never reached — and makes no upstream call. -/
theorem claim10_null_body (cfg : Config) (req : Request) (net : FetchReq → FetchResp)
    (hm : req.method = "POST")
    (hct : strIncludes (jsToLowerCase (req.contentTypeHeader.getD "")) "application/json"
      = true)
    (hparse : jsParse (jsonBodyText req.rawBody) = .ok .null) :
    handler cfg req net =
      ([], errJsonDetails 500 "Internal server error"
            (jsSubstring0 nullDestructureErr 300)) := by
  simp [handler, handlerTry, jsonBranch, hm, hct, hparse, Js.isNull]

/-- The RVC JSON call always performs exactly the `{text, language}` POST to
the synthesize endpoint, whatever the upstream answers. -/
theorem rvcJsonCall_calls (cfg : Config) (net : FetchReq → FetchResp) (t l : Js) :
    (rvcJsonCall cfg net t l).1 =
      [{ url := synthUrl cfg.RVC_SERVER_URL
         method := "POST"
         headers := [("Content-Type", "application/json")]
         body := .jsonOf (.obj [("text", t), ("language", l)]) }] := by
  simp only [rvcJsonCall]
  split <;> rfl

/-- With an API key configured, the Gemini call always performs exactly the
bearer-authorised fixed-encoding POST, whatever the upstream answers. -/
theorem geminiCall_calls (cfg : Config) (net : FetchReq → FetchResp) (t : Js)
    (hkey : cfg.GEMINI_API_KEY ≠ "") :
    (geminiCall cfg net t).1 =
      [{ url := cfg.GEMINI_TTS_URL
         method := "POST"
         headers := [("Content-Type", "application/json"),
                     ("Authorization", "Bearer " ++ cfg.GEMINI_API_KEY)]
         body := .jsonOf (.obj
           [("input", .obj [("text", t)]),
            ("audio", .obj [("encoding", .str "LINEAR16"),
                            ("sampleRateHertz", .num 24000 0)])]) }] := by
  simp only [geminiCall, if_neg hkey]
  split <;> rfl

/-- Claim C1: for every JSON-content-type POST request whose parsed body has
a truthy `text` field: when the derived `mode` (default `"cloned"`) strictly
equals `"cloned"` and the voice-cloning server URL is configured (non-empty),
the single outbound call is the POST of `{text, language}` — `mode` omitted —
to the cloning server's `/synthesize` endpoint with `Content-Type:
application/json`; otherwise, when the TTS API key is not configured, the
handler responds 500 `{error: "No RVC_SERVER_URL or GEMINI_API_KEY
configured"}` with no upstream call at all. -/
theorem claim1_json_routing (cfg : Config) (req : Request) (net : FetchReq → FetchResp)
    (body : Js)
    (hm : req.method = "POST")
    (hct : strIncludes (jsToLowerCase (req.contentTypeHeader.getD "")) "application/json"
      = true)
    (hparse : jsParse (jsonBodyText req.rawBody) = .ok body)
    (htext : truthyOpt (getField body "text") = true) :
    (isStrEq ((getField body "mode").getD (.str "cloned")) "cloned" = true →
        cfg.RVC_SERVER_URL ≠ "" →
        (handler cfg req net).1 =
          [{ url := synthUrl cfg.RVC_SERVER_URL
             method := "POST"
             headers := [("Content-Type", "application/json")]
             body := .jsonOf (.obj
               [("text", (getField body "text").getD .null),
                ("language", (getField body "language").getD (.str "en"))]) }])
    ∧ ((isStrEq ((getField body "mode").getD (.str "cloned")) "cloned" = false ∨
          cfg.RVC_SERVER_URL = "") →
        cfg.GEMINI_API_KEY = "" →
        handler cfg req net =
          ([], errJson 500 "No RVC_SERVER_URL or GEMINI_API_KEY configured")) := by
  rw [handler_post_json cfg req net body hm hct hparse (isNull_false_of_truthy body htext)]
  constructor
  · intro h1 h2
    have hcond : (isStrEq ((getField body "mode").getD (.str "cloned")) "cloned"
        && cfg.RVC_SERVER_URL != "") = true := by
      simp [h1, h2]
    simp only [htext, Bool.not_true, if_false, hcond, if_true]
    exact rvcJsonCall_calls cfg net _ _
  · intro h1 h2
    have hcond : (isStrEq ((getField body "mode").getD (.str "cloned")) "cloned"
        && cfg.RVC_SERVER_URL != "") = false := by
      rcases h1 with ha | hb
      · simp [ha]
      · simp [hb]
    simp only [htext, Bool.not_true, if_false, hcond]
    simp [geminiCall, h2]

theorem claim1_json_routing_witness :
    jsParse (jsonBodyText [123, 34, 116, 101, 120, 116, 34, 58, 34, 104, 105, 34, 125])
      = .ok (.obj [("text", .str "hi")]) ∧
    truthyOpt (getField (.obj [("text", .str "hi")]) "text") = true ∧
    isStrEq ((getField (.obj [("text", .str "hi")]) "mode").getD (.str "cloned")) "cloned"
      = true ∧
    (handler ⟨"http://rvc", "", ""⟩
        ⟨"POST", some "application/json",
         [123, 34, 116, 101, 120, 116, 34, 58, 34, 104, 105, 34, 125]⟩
        (fun _ => ⟨200, [7]⟩)).1 =
      [{ url := synthUrl "http://rvc"
         method := "POST"
         headers := [("Content-Type", "application/json")]
         body := .jsonOf (.obj [("text", .str "hi"), ("language", .str "en")]) }] :=
  ⟨rfl, rfl, rfl,
    (claim1_json_routing ⟨"http://rvc", "", ""⟩
        ⟨"POST", some "application/json",
         [123, 34, 116, 101, 120, 116, 34, 58, 34, 104, 105, 34, 125]⟩
        (fun _ => ⟨200, [7]⟩) (.obj [("text", .str "hi")]) rfl rfl rfl rfl).1 rfl
      (by decide)⟩

/-- Claim C7: for every JSON request routed to the TTS provider (mode not
`"cloned"` or no cloning URL configured) with the API key configured, the
single outbound call goes to the TTS endpoint with headers `Content-Type:
application/json` and `Authorization: Bearer <key>`, and a JSON body whose
`input.text` is the request's `text` and whose `audio` is fixed to
`LINEAR16` at 24000 Hz — the request's `language` value appears nowhere in
the payload. -/
theorem claim7_tts_request (cfg : Config) (req : Request) (net : FetchReq → FetchResp)
    (body : Js)
    (hm : req.method = "POST")
    (hct : strIncludes (jsToLowerCase (req.contentTypeHeader.getD "")) "application/json"
      = true)
    (hparse : jsParse (jsonBodyText req.rawBody) = .ok body)
    (htext : truthyOpt (getField body "text") = true)
    (hroute : isStrEq ((getField body "mode").getD (.str "cloned")) "cloned" = false ∨
      cfg.RVC_SERVER_URL = "")
    (hkey : cfg.GEMINI_API_KEY ≠ "") :
    (handler cfg req net).1 =
      [{ url := cfg.GEMINI_TTS_URL
         method := "POST"
         headers := [("Content-Type", "application/json"),
                     ("Authorization", "Bearer " ++ cfg.GEMINI_API_KEY)]
         body := .jsonOf (.obj
           [("input", .obj [("text", (getField body "text").getD .null)]),
            ("audio", .obj [("encoding", .str "LINEAR16"),
                            ("sampleRateHertz", .num 24000 0)])]) }] := by
  rw [handler_post_json cfg req net body hm hct hparse (isNull_false_of_truthy body htext)]
  have hcond : (isStrEq ((getField body "mode").getD (.str "cloned")) "cloned"
      && cfg.RVC_SERVER_URL != "") = false := by
    rcases hroute with ha | hb
    · simp [ha]
    · simp [hb]
  simp only [htext, Bool.not_true, if_false, hcond]
  exact geminiCall_calls cfg net _ hkey

theorem claim7_tts_request_witness :
    jsParse (jsonBodyText [123, 34, 116, 101, 120, 116, 34, 58, 34, 104, 105, 34, 125])
      = .ok (.obj [("text", .str "hi")]) ∧
    truthyOpt (getField (.obj [("text", .str "hi")]) "text") = true ∧
    (("" : String) = "" ∨ False) ∧
    ("k" : String) ≠ "" ∧
    (handler ⟨"", "k", "https://tts.example"⟩
        ⟨"POST", some "application/json",
         [123, 34, 116, 101, 120, 116, 34, 58, 34, 104, 105, 34, 125]⟩
        (fun _ => ⟨200, [7]⟩)).1 =
      [{ url := "https://tts.example"
         method := "POST"
         headers := [("Content-Type", "application/json"),
                     ("Authorization", "Bearer k")]
         body := .jsonOf (.obj
           [("input", .obj [("text", .str "hi")]),
            ("audio", .obj [("encoding", .str "LINEAR16"),
                            ("sampleRateHertz", .num 24000 0)])]) }] :=
  ⟨rfl, rfl, Or.inl rfl, by decide,
    claim7_tts_request _ _ _ (.obj [("text", .str "hi")]) rfl rfl rfl rfl
      (Or.inr rfl) (by decide)⟩

theorem claim10_null_body_witness :
    jsParse (jsonBodyText [110, 117, 108, 108]) = .ok .null ∧
    handler ⟨"http://rvc", "k", ""⟩ ⟨"POST", some "application/json", [110, 117, 108, 108]⟩
        (fun _ => ⟨200, []⟩) =
      ([], errJsonDetails 500 "Internal server error"
            (jsSubstring0 nullDestructureErr 300)) :=
  ⟨rfl, claim10_null_body _ _ _ rfl rfl rfl⟩

/-- On a POST request whose content type does not contain
`application/json`, the handler is exactly the raw/binary branch. -/
theorem handler_post_binary (cfg : Config) (req : Request) (net : FetchReq → FetchResp)
    (hm : req.method = "POST")
    (hct : strIncludes (jsToLowerCase (req.contentTypeHeader.getD "")) "application/json"
      = false) :
    handler cfg req net = binaryBranch cfg net req.contentTypeHeader req.rawBody := by
  simp [handler, handlerTry, hm, hct]

/-- Claim C2, counterexample: an inbound request may carry a `content-type`
header that is present but empty.  The code's `|| "application/octet-stream"`
default fires on any falsy header value, so for such a request the forwarded
`Content-Type` is `application/octet-stream`, not the inbound header value
`""` the claim requires — the claim's "or ... when the inbound header is
absent" does not cover this input. -/
theorem claim2_raw_forward_counterexample :
    (⟨"POST", some "", [0, 1, 2]⟩ : Request).contentTypeHeader = some "" ∧
    (handler ⟨"http://rvc.example", "", ""⟩ ⟨"POST", some "", [0, 1, 2]⟩
        (fun _ => ⟨200, []⟩)).1 =
      [{ url := "http://rvc.example/synthesize"
         method := "POST"
         headers := [("Content-Type", "application/octet-stream")]
         body := .bytes [0, 1, 2] }] ∧
    ("application/octet-stream" : String) ≠ "" :=
  ⟨rfl, rfl, by decide⟩

/-- Claim C2, amended: for every POST request whose content-type does not
contain `application/json`, when the voice-cloning server URL is configured,
the body forwarded to the cloning server's `/synthesize` endpoint is
byte-for-byte the inbound raw body, and the outbound `Content-Type` header
equals the inbound content-type header when that header is present and
non-empty, and is `application/octet-stream` when the inbound header is
absent **or empty**. -/
theorem claim2_raw_forward (cfg : Config) (req : Request) (net : FetchReq → FetchResp)
    (hm : req.method = "POST")
    (hct : strIncludes (jsToLowerCase (req.contentTypeHeader.getD "")) "application/json"
      = false)
    (hrvc : cfg.RVC_SERVER_URL ≠ "") :
    ∃ hdr,
      (handler cfg req net).1 =
        [{ url := synthUrl cfg.RVC_SERVER_URL
           method := "POST"
           headers := [("Content-Type", hdr)]
           body := .bytes req.rawBody }] ∧
      (match req.contentTypeHeader with
       | none => hdr = "application/octet-stream"
       | some s => if s = "" then hdr = "application/octet-stream" else hdr = s) := by
  rw [handler_post_binary cfg req net hm hct]
  simp only [binaryBranch, if_neg hrvc]
  refine ⟨match req.contentTypeHeader with
    | none => "application/octet-stream"
    | some s => if s = "" then "application/octet-stream" else s, ?_, ?_⟩
  · split <;> rfl
  · rcases req.contentTypeHeader with _ | s
    · rfl
    · by_cases hs : s = "" <;> simp [hs]

theorem claim2_raw_forward_witness :
    strIncludes (jsToLowerCase ((some "audio/webm").getD "")) "application/json" = false ∧
    ("http://rvc" : String) ≠ "" ∧
    (∃ hdr,
      (handler ⟨"http://rvc", "", ""⟩ ⟨"POST", some "audio/webm", [9, 8, 7]⟩
          (fun _ => ⟨200, []⟩)).1 =
        [{ url := synthUrl "http://rvc"
           method := "POST"
           headers := [("Content-Type", hdr)]
           body := .bytes [9, 8, 7] }] ∧
      (match (some "audio/webm" : Option String) with
       | none => hdr = "application/octet-stream"
       | some s => if s = "" then hdr = "application/octet-stream" else hdr = s)) :=
  ⟨rfl, by decide,
    claim2_raw_forward ⟨"http://rvc", "", ""⟩ ⟨"POST", some "audio/webm", [9, 8, 7]⟩
      (fun _ => ⟨200, []⟩) rfl rfl (by decide)⟩

/-- Claim C5: for every POST request whose content type does not contain
`application/json`: when the voice-cloning server URL is not configured the
handler responds 400 with the specific "received audio, but RVC_SERVER_URL is
not set" error and performs no outbound call; and under any configuration,
every outbound call of such a request is the raw-body forward to the cloning
server's `/synthesize` endpoint — the TTS provider is never called for
non-JSON input. -/
theorem claim5_no_tts_for_binary (cfg : Config) (req : Request)
    (net : FetchReq → FetchResp)
    (hm : req.method = "POST")
    (hct : strIncludes (jsToLowerCase (req.contentTypeHeader.getD "")) "application/json"
      = false) :
    (cfg.RVC_SERVER_URL = "" →
      handler cfg req net =
        ([], errJson 400
          "This endpoint received audio, but RVC_SERVER_URL is not set. Set RVC_SERVER_URL to forward audio."))
    ∧ ∀ c ∈ (handler cfg req net).1,
        c.url = synthUrl cfg.RVC_SERVER_URL ∧ c.body = .bytes req.rawBody := by
  rw [handler_post_binary cfg req net hm hct]
  constructor
  · intro hr
    simp [binaryBranch, hr]
  · intro c hc
    by_cases hr : cfg.RVC_SERVER_URL = ""
    · simp [binaryBranch, hr] at hc
    · simp only [binaryBranch, if_neg hr] at hc
      revert hc
      split <;> (intro hc; simp only [List.mem_singleton] at hc; subst hc; exact ⟨rfl, rfl⟩)

theorem claim5_no_tts_for_binary_witness :
    strIncludes (jsToLowerCase ((some "audio/webm").getD "")) "application/json" = false ∧
    handler ⟨"", "k", "https://tts.example"⟩ ⟨"POST", some "audio/webm", [1]⟩
        (fun _ => ⟨200, []⟩) =
      ([], errJson 400
        "This endpoint received audio, but RVC_SERVER_URL is not set. Set RVC_SERVER_URL to forward audio.") :=
  ⟨rfl,
    (claim5_no_tts_for_binary ⟨"", "k", "https://tts.example"⟩
      ⟨"POST", some "audio/webm", [1]⟩ (fun _ => ⟨200, []⟩) rfl rfl).1 rfl⟩

/-- First component of a branch returning the same calls either way. -/
theorem ite_pair_fst {α β : Type} (b : Bool) (c : α) (x y : β) :
    (if !b then (c, x) else (c, y)).1 = c := by
  cases b <;> rfl

/-- Second component of such a branch, with the guard un-negated. -/
theorem ite_pair_snd {α β : Type} (b : Bool) (c : α) (x y : β) :
    (if !b then (c, x) else (c, y)).2 = if b then y else x := by
  cases b <;> rfl

/-- Shape of the RVC JSON call: one outbound request; 2xx relays the audio,
anything else yields the 502 with this branch's label and truncation. -/
theorem rvcJsonCall_shape (cfg : Config) (net : FetchReq → FetchResp) (t l : Js) :
    ∃ c, (rvcJsonCall cfg net t l).1 = [c] ∧
      (rvcJsonCall cfg net t l).2 =
        (if (net c).isOk then audioOk (net c).body
         else errJsonDetails 502 (branchTag c).1
                (jsSubstring0 (net c).text (branchTag c).2)) := by
  refine ⟨_, rvcJsonCall_calls cfg net t l, ?_⟩
  simp only [rvcJsonCall]
  rw [ite_pair_snd]
  rfl

/-- Shape of the Gemini TTS call when a key is configured. -/
theorem geminiCall_shape (cfg : Config) (net : FetchReq → FetchResp) (t : Js)
    (hkey : cfg.GEMINI_API_KEY ≠ "") :
    ∃ c, (geminiCall cfg net t).1 = [c] ∧
      (geminiCall cfg net t).2 =
        (if (net c).isOk then audioOk (net c).body
         else errJsonDetails 502 (branchTag c).1
                (jsSubstring0 (net c).text (branchTag c).2)) := by
  refine ⟨_, geminiCall_calls cfg net t hkey, ?_⟩
  simp only [geminiCall, if_neg hkey]
  rw [ite_pair_snd]
  rfl

/-- The raw forward always performs exactly the byte-body POST to the
synthesize endpoint (when the RVC URL is configured). -/
theorem binaryBranch_calls (cfg : Config) (net : FetchReq → FetchResp)
    (ct : Option String) (bb : List Nat) (hr : cfg.RVC_SERVER_URL ≠ "") :
    (binaryBranch cfg net ct bb).1 =
      [{ url := synthUrl cfg.RVC_SERVER_URL
         method := "POST"
         headers := [("Content-Type",
           match ct with
           | none => "application/octet-stream"
           | some s => if s = "" then "application/octet-stream" else s)]
         body := .bytes bb }] := by
  simp only [binaryBranch, if_neg hr]
  rw [ite_pair_fst]

/-- Shape of the raw forward when the RVC URL is configured. -/
theorem binaryBranch_shape (cfg : Config) (net : FetchReq → FetchResp)
    (ct : Option String) (bb : List Nat) (hr : cfg.RVC_SERVER_URL ≠ "") :
    ∃ c, (binaryBranch cfg net ct bb).1 = [c] ∧
      (binaryBranch cfg net ct bb).2 =
        (if (net c).isOk then audioOk (net c).body
         else errJsonDetails 502 (branchTag c).1
                (jsSubstring0 (net c).text (branchTag c).2)) := by
  refine ⟨_, binaryBranch_calls cfg net ct bb hr, ?_⟩
  simp only [binaryBranch, if_neg hr]
  rw [ite_pair_snd]
  rfl

/-- Global shape of one handler invocation: either no outbound call is made,
or exactly one call `c` is made, and the response is determined by the
upstream answer to `c`: relay on 2xx, the branch's 502 otherwise. -/
theorem handler_shape (cfg : Config) (req : Request) (net : FetchReq → FetchResp) :
    (handler cfg req net).1 = [] ∨
    ∃ c, (handler cfg req net).1 = [c] ∧
      (handler cfg req net).2 =
        (if (net c).isOk then audioOk (net c).body
         else errJsonDetails 502 (branchTag c).1
                (jsSubstring0 (net c).text (branchTag c).2)) := by
  by_cases hm : req.method = "POST"
  · cases hct : strIncludes (jsToLowerCase (req.contentTypeHeader.getD ""))
        "application/json" with
    | true =>
      cases hp : jsParse (jsonBodyText req.rawBody) with
      | error e => left; simp [handler, handlerTry, jsonBranch, hm, hct, hp]
      | ok body =>
        cases hnull : body.isNull with
        | true => left; simp [handler, handlerTry, jsonBranch, hm, hct, hp, hnull]
        | false =>
          rw [handler_post_json cfg req net body hm hct hp hnull]
          cases htr : truthyOpt (getField body "text") with
          | false => left; simp [htr]
          | true =>
            simp only [htr, Bool.not_true, Bool.false_eq_true, if_false]
            cases hcond : (isStrEq ((getField body "mode").getD (.str "cloned")) "cloned"
                && cfg.RVC_SERVER_URL != "") with
            | true =>
              right
              simp only [hcond, if_true]
              exact rvcJsonCall_shape cfg net _ _
            | false =>
              simp only [hcond, Bool.false_eq_true, if_false]
              by_cases hkey : cfg.GEMINI_API_KEY = ""
              · left; simp [geminiCall, hkey]
              · right; exact geminiCall_shape cfg net _ hkey
    | false =>
      rw [handler_post_binary cfg req net hm hct]
      by_cases hr : cfg.RVC_SERVER_URL = ""
      · left; simp [binaryBranch, hr]
      · right; exact binaryBranch_shape cfg net _ _ hr
  · left; simp [handler, hm]

/-- Claim C3: whenever the handler performed an outbound call whose upstream
response is non-2xx, it responds 502 with the error label of the branch the
call belongs to, and details equal to the upstream response text truncated to
that branch's limit — 200 characters for the two cloning-server branches
(`RVC synth failed`, `RVC audio processing failed`), 300 for the TTS branch
(`Gemini TTS failed`) — so the details are at most 200 resp. 300 characters
long. -/
theorem claim3_upstream_failure (cfg : Config) (req : Request)
    (net : FetchReq → FetchResp) (c : FetchReq)
    (hc : (handler cfg req net).1 = [c])
    (hbad : (net c).isOk = false) :
    (handler cfg req net).2 =
        errJsonDetails 502 (branchTag c).1 (jsSubstring0 (net c).text (branchTag c).2)
      ∧ ((branchTag c).1 = "RVC synth failed" ∧ (branchTag c).2 = 200 ∨
         (branchTag c).1 = "Gemini TTS failed" ∧ (branchTag c).2 = 300 ∨
         (branchTag c).1 = "RVC audio processing failed" ∧ (branchTag c).2 = 200)
      ∧ (jsSubstring0 (net c).text (branchTag c).2).length ≤ (branchTag c).2 := by
  refine ⟨?_, ?_, jsSubstring0_length_le _ _⟩
  · rcases handler_shape cfg req net with h | ⟨c2, h1, h2⟩
    · rw [h] at hc; exact absurd hc (by simp)
    · rw [h1] at hc
      simp only [List.cons.injEq, and_true] at hc
      subst hc
      rw [h2]
      simp [hbad]
  · rcases c with ⟨u, m, hs, bdy⟩
    cases bdy with
    | bytes b => right; right; exact ⟨rfl, rfl⟩
    | jsonOf v =>
      by_cases ha : (hs.any (fun p => p.1 == "Authorization")) = true
      · right; left; constructor <;> simp [branchTag, ha]
      · left; constructor <;> simp [branchTag, ha]

theorem claim3_upstream_failure_witness :
    (handler ⟨"http://rvc", "", ""⟩
        ⟨"POST", some "application/json",
         [123, 34, 116, 101, 120, 116, 34, 58, 34, 104, 105, 34, 125]⟩
        (fun _ => ⟨500, [98, 111, 111, 109]⟩)).1 =
      [{ url := "http://rvc/synthesize"
         method := "POST"
         headers := [("Content-Type", "application/json")]
         body := .jsonOf (.obj [("text", .str "hi"), ("language", .str "en")]) }] ∧
    ((fun (_ : FetchReq) => (⟨500, [98, 111, 111, 109]⟩ : FetchResp))
        { url := "http://rvc/synthesize"
          method := "POST"
          headers := [("Content-Type", "application/json")]
          body := .jsonOf (.obj [("text", .str "hi"), ("language", .str "en")]) }).isOk
      = false ∧
    (handler ⟨"http://rvc", "", ""⟩
        ⟨"POST", some "application/json",
         [123, 34, 116, 101, 120, 116, 34, 58, 34, 104, 105, 34, 125]⟩
        (fun _ => ⟨500, [98, 111, 111, 109]⟩)).2 =
      errJsonDetails 502 "RVC synth failed" (jsSubstring0 (utf8Decode [98, 111, 111, 109]) 200) :=
  ⟨rfl, rfl,
    (claim3_upstream_failure ⟨"http://rvc", "", ""⟩
      ⟨"POST", some "application/json",
       [123, 34, 116, 101, 120, 116, 34, 58, 34, 104, 105, 34, 125]⟩
      (fun _ => ⟨500, [98, 111, 111, 109]⟩)
      { url := "http://rvc/synthesize"
        method := "POST"
        headers := [("Content-Type", "application/json")]
        body := .jsonOf (.obj [("text", .str "hi"), ("language", .str "en")]) }
      rfl rfl).1⟩

/-- Claim C9: one invocation never makes more than one outbound call, and a
rejected request — 405 wrong method, any 400, or the 500 for missing
configuration — makes none: the cloning-server call and the TTS call are
mutually exclusive. -/
theorem claim9_single_upstream (cfg : Config) (req : Request)
    (net : FetchReq → FetchResp) :
    (handler cfg req net).1.length ≤ 1
    ∧ ((handler cfg req net).2.status = 405 → (handler cfg req net).1 = [])
    ∧ ((handler cfg req net).2.status = 400 → (handler cfg req net).1 = [])
    ∧ ((handler cfg req net).2
          = errJson 500 "No RVC_SERVER_URL or GEMINI_API_KEY configured" →
        (handler cfg req net).1 = []) := by
  rcases handler_shape cfg req net with h | ⟨c, h1, h2⟩
  · rw [h]; exact ⟨by simp, fun _ => rfl, fun _ => rfl, fun _ => rfl⟩
  · rw [h1, h2]
    refine ⟨by simp, ?_, ?_, ?_⟩ <;> intro hx <;> exfalso <;> revert hx <;>
      cases hok : (net c).isOk <;> simp [hok, audioOk, errJsonDetails, errJson]

theorem claim9_single_upstream_witness :
    (handler ⟨"http://rvc", "", ""⟩
        ⟨"POST", some "application/json",
         [123, 34, 116, 101, 120, 116, 34, 58, 34, 104, 105, 34, 125]⟩
        (fun _ => ⟨200, [7]⟩)).1.length ≤ 1 :=
  (claim9_single_upstream ⟨"http://rvc", "", ""⟩
    ⟨"POST", some "application/json",
     [123, 34, 116, 101, 120, 116, 34, 58, 34, 104, 105, 34, 125]⟩
    (fun _ => ⟨200, [7]⟩)).1

end VoiceApi
